import Mathlib

/-!
# Chisel command-line front end (`main.go`)

A shallow embedding of the flag value types (`multiFlag`, `headerFlags`), of the
configuration resolution performed by `server` and `client`, and of the
shutdown orchestration shared by both modes, followed by the properties
established about them.

Modelling conventions

* A Go `string` is a `GoString`, the list of its Unicode code points.  Every
  byte-level test made by the code (`':'`, the header token table, ASCII case)
  concerns bytes below `0x80`, which stand for themselves in UTF-8, so slicing
  at an index found by `strings.Index` is the same cut in both views.
* A Go `map[string][]string` is an association list read through its first
  matching entry; `http.Header.store` is the assignment `h[k] = vs`.
* A method with a pointer-like receiver returns the receiver after the call
  together with its `error`, `none` standing for `nil`.
* `os.Getenv`, `settings.Env`, `chserver.NewServer`, `chclient.NewClient` and
  the write made by `generatePidFile` are parameters: the first two as
  functions from a name to a value, the constructors as the predicate telling
  whether construction succeeds, the write as the flag `writePid` telling
  whether `os.WriteFile` succeeds.
-/

namespace Chisel

/-- Go `string`, as the sequence of its code points. -/
abbrev GoString := List Char

/-! ## `strings` and `unicode` -/

namespace strings

/-- Go `strings.Index(s, sep)` for a one-character separator: the position of
the first occurrence of `sep` in `s`, or `-1`. -/
def Index : GoString → Char → Int
  | [], _ => -1
  | c :: cs, sep =>
    if c = sep then 0
    else
      let r := Index cs sep
      if r < 0 then -1 else r + 1

/-- Go `unicode.IsSpace`: the Latin-1 cases spelled out in its `switch`, then
the `White_Space` range table. -/
def IsSpace (c : Char) : Bool :=
  let n := c.toNat
  n = 0x09 || n = 0x0A || n = 0x0B || n = 0x0C || n = 0x0D || n = 0x20 ||
  n = 0x85 || n = 0xA0 || n = 0x1680 || (0x2000 ≤ n && n ≤ 0x200A) ||
  n = 0x2028 || n = 0x2029 || n = 0x202F || n = 0x205F || n = 0x3000

/-- Go `strings.TrimSpace`: leading and trailing white space removed. -/
def TrimSpace (s : GoString) : GoString :=
  (s.dropWhile IsSpace).rdropWhile IsSpace

/-- Go `strings.Join(elems, sep)`. -/
def Join : List GoString → GoString → GoString
  | [], _ => []
  | [a], _ => a
  | a :: b :: rest, sep => a ++ sep ++ Join (b :: rest) sep

end strings

/-! ## `net/textproto` header-key canonicalisation -/

namespace textproto

/-- Go `validHeaderFieldByte`: the RFC 7230 token characters. -/
def validHeaderFieldByte (c : Char) : Bool :=
  let n := c.toNat
  (48 ≤ n && n ≤ 57) || (65 ≤ n && n ≤ 90) || (97 ≤ n && n ≤ 122) ||
  n = 33 || n = 35 || n = 36 || n = 37 || n = 38 || n = 39 || n = 42 ||
  n = 43 || n = 45 || n = 46 || n = 94 || n = 95 || n = 96 || n = 124 || n = 126

/-- ASCII lower-case letter test, `'a' <= c && c <= 'z'`. -/
def isLowerAZ (c : Char) : Bool := 97 ≤ c.toNat && c.toNat ≤ 122

/-- ASCII upper-case letter test, `'A' <= c && c <= 'Z'`. -/
def isUpperAZ (c : Char) : Bool := 65 ≤ c.toNat && c.toNat ≤ 90

/-- The second loop of Go `canonicalMIMEHeaderKey`: first letter upper case,
upper case after each dash, lower case elsewhere. -/
def canonLoop : Bool → GoString → GoString
  | _, [] => []
  | upper, c :: cs =>
    let c1 :=
      if upper && isLowerAZ c then Char.ofNat (c.toNat - 32)
      else if !upper && isUpperAZ c then Char.ofNat (c.toNat + 32)
      else c
    c1 :: canonLoop (c1 = '-') cs

/-- The first loop of Go `canonicalMIMEHeaderKey`: `none` when a byte is
neither a token byte nor a space (return unchanged, not ok), otherwise
`some noCanon` where `noCanon` records that a space was seen. -/
def scanKey : GoString → Bool → Option Bool
  | [], noCanon => some noCanon
  | c :: cs, noCanon =>
    if validHeaderFieldByte c then scanKey cs noCanon
    else if c = ' ' then scanKey cs true
    else none

/-- Go `canonicalMIMEHeaderKey(a)`: the key and the `ok` flag. -/
def canonicalMIMEHeaderKey (a : GoString) : GoString × Bool :=
  match scanKey a false with
  | none => (a, false)
  | some true => (a, true)
  | some false => (canonLoop true a, true)

/-- The quick-check loop of Go `CanonicalMIMEHeaderKey(s)`, run over the rest
of `s` with the current `upper` flag. -/
def quickCheck (s : GoString) : Bool → GoString → GoString
  | _, [] => s
  | upper, c :: cs =>
    if !validHeaderFieldByte c then s
    else if upper && isLowerAZ c then (canonicalMIMEHeaderKey s).1
    else if !upper && isUpperAZ c then (canonicalMIMEHeaderKey s).1
    else quickCheck s (c = '-') cs

/-- Go `textproto.CanonicalMIMEHeaderKey`. -/
def CanonicalMIMEHeaderKey (s : GoString) : GoString :=
  quickCheck s true s

end textproto

/-! ## `net/http` headers -/

namespace http

/-- Go `http.Header`, a `map[string][]string`. -/
abbrev Header := List (GoString × List GoString)

/-- The map read `v, ok := h[k]`. -/
def Header.lookup : Header → GoString → Option (List GoString)
  | [], _ => none
  | (k1, vs) :: rest, k => if k1 = k then some vs else Header.lookup rest k

/-- The map read `h[k]`, the nil slice when the key is absent. -/
def Header.index (h : Header) (k : GoString) : List GoString :=
  (h.lookup k).getD []

/-- The map assignment `h[k] = vs`. -/
def Header.store : Header → GoString → List GoString → Header
  | [], k, vs => [(k, vs)]
  | (k1, vs1) :: rest, k, vs =>
    if k1 = k then (k, vs) :: rest else (k1, vs1) :: Header.store rest k vs

/-- Go `Header.Add`: `key = CanonicalMIMEHeaderKey(key); h[key] = append(h[key], value)`. -/
def Header.Add (h : Header) (key value : GoString) : Header :=
  let key := textproto.CanonicalMIMEHeaderKey key
  h.store key (h.index key ++ [value])

/-- Go `Header.Set`: `h[CanonicalMIMEHeaderKey(key)] = []string{value}`. -/
def Header.Set (h : Header) (key value : GoString) : Header :=
  h.store (textproto.CanonicalMIMEHeaderKey key) [value]

end http

/-! ## Flag value types -/

/-- The type `multiFlag`: the slice its `values` pointer designates. -/
structure multiFlag where
  values : List GoString
  deriving DecidableEq, Repr

/-- The method `multiFlag.String`. -/
def multiFlag.String (flag : multiFlag) : GoString :=
  strings.Join flag.values ", ".toList

/-- The method `multiFlag.Set`: the backing slice after the call and the
returned error. -/
def multiFlag.Set (flag : multiFlag) (arg : GoString) : multiFlag × Option GoString :=
  ({ values := flag.values ++ [arg] }, none)

/-- The type `headerFlags`: its embedded `http.Header`, `none` for a nil map. -/
structure headerFlags where
  Header : Option http.Header
  deriving DecidableEq, Repr

/-- The error built by `headerFlags.Set` for an argument without a colon. -/
def headerFlags.invalidHeader (arg : GoString) : GoString :=
  "Invalid header (".toList ++ arg ++
    "). Should be in the format \"HeaderName: HeaderContent\"".toList

/-- The method `headerFlags.Set`: the receiver after the call and the returned
error. -/
def headerFlags.Set (flag : headerFlags) (arg : GoString) : headerFlags × Option GoString :=
  let index := strings.Index arg ':'
  if index < 0 then
    (flag, some (headerFlags.invalidHeader arg))
  else
    let hdr : http.Header :=
      match flag.Header with
      | none => []
      | some h => h
    let key := arg.take index.toNat
    let value := strings.TrimSpace (arg.drop (index.toNat + 1))
    ({ Header := some (hdr.Add key value) }, none)

/-- The mapping a `headerFlags` value denotes; a nil map reads as empty. -/
def headerFlags.mapping (flag : headerFlags) : http.Header :=
  match flag.Header with
  | none => []
  | some h => h

/-- The occurrences of a repeated flag handed to `multiFlag.Set` one after the
other, as `flag.Parse` does for each `--tls-domain`: the final backing slice
and the errors returned, in order. -/
def multiFlag.SetAll : multiFlag → List GoString → multiFlag × List (Option GoString)
  | flag, [] => (flag, [])
  | flag, a :: rest =>
    let r := flag.Set a
    let rs := multiFlag.SetAll r.1 rest
    (rs.1, r.2 :: rs.2)

/-! ## Configuration records

The fields of `chserver.Config` and `chclient.Config` that `main.go` binds or
assigns. -/

namespace chserver

/-- The fields of `chserver.TLSConfig` bound by `server`. -/
structure TLSConfig where
  Key : GoString
  Cert : GoString
  Domains : List GoString
  CA : GoString
  deriving DecidableEq, Repr

/-- The fields of `chserver.Config` bound by `server`. -/
structure Config where
  KeySeed : GoString
  KeyFile : GoString
  AuthFile : GoString
  Auth : GoString
  KeepAlive : Int
  Proxy : GoString
  Socks5 : Bool
  Reverse : Bool
  TLS : TLSConfig
  deriving DecidableEq, Repr

end chserver

namespace chclient

/-- The fields of `chclient.TLSConfig` bound by `client`. -/
structure TLSConfig where
  SkipVerify : Bool
  CA : GoString
  Cert : GoString
  Key : GoString
  ServerName : GoString
  deriving DecidableEq, Repr

/-- The fields of `chclient.Config` bound by `client`. -/
structure Config where
  Fingerprint : GoString
  Auth : GoString
  KeepAlive : Int
  MaxRetryCount : Int
  MaxRetryInterval : Int
  Server : GoString
  Proxy : GoString
  Remotes : List GoString
  Headers : http.Header
  TLS : TLSConfig
  deriving DecidableEq, Repr

end chclient

/-- One read of the environment: `os.Getenv(name)` or `settings.Env(name)`. -/
inductive EnvLookup where
  | osGetenv (name : GoString)
  | settingsEnv (name : GoString)
  deriving DecidableEq, Repr

/-! ## `server` -/

/-- The values of the flags of `server` once `flags.Parse` has returned
without error, one field per flag (`tlsDomain` is the list collected by
`multiFlag`); a flag that was not given holds its default. -/
structure serverFlags where
  key : GoString
  keyfile : GoString
  authfile : GoString
  auth : GoString
  keepalive : Int
  proxy : GoString
  backend : GoString
  socks5 : Bool
  reverse : Bool
  tlsKey : GoString
  tlsCert : GoString
  tlsDomain : List GoString
  tlsCA : GoString
  host : GoString
  p : GoString
  port : GoString
  pid : Bool
  v : Bool
  keygen : GoString
  deriving DecidableEq, Repr

/-- The variables `server` goes on updating after parsing, with the
environment reads made so far. -/
structure serverVars where
  config : chserver.Config
  host : GoString
  port : GoString
  lookups : List EnvLookup
  deriving DecidableEq, Repr

/-- What one run of `server` does up to the launch of the engine: the
environment reads in order, the arguments of `ccrypto.GenerateKeyFile`, of
`chserver.NewServer` and of `s.Start` when each is called, the value given to
`s.Debug`, whether `generatePidFile` is called, and whether `log.Fatal` ended
the run. -/
structure serverRun where
  lookups : List EnvLookup
  GenerateKeyFile : Option (GoString × GoString)
  NewServer : Option chserver.Config
  Start : Option (GoString × GoString)
  Debug : Option Bool
  pidFile : Bool
  fatal : Bool
  deriving DecidableEq, Repr

/-- Lines 78-92 of `server`: `config` as the flag bindings leave it after
parsing. -/
def server.bound (f : serverFlags) : chserver.Config :=
  { KeySeed := f.key, KeyFile := f.keyfile, AuthFile := f.authfile, Auth := f.auth
    KeepAlive := f.keepalive, Proxy := f.proxy, Socks5 := f.socks5, Reverse := f.reverse
    TLS := { Key := f.tlsKey, Cert := f.tlsCert, Domains := f.tlsDomain, CA := f.tlsCA } }

/-- Lines 109-112 of `server`: the backend flag overrides `config.Proxy`. -/
def server.applyBackend (config : chserver.Config) (backend : GoString) : chserver.Config :=
  if backend ≠ [] then { config with Proxy := backend } else config

/-- Lines 126-131 of `server`: host from the flag, then `HOST`, then `0.0.0.0`. -/
def server.resolveHost (getenv : GoString → GoString) (v : serverVars) : serverVars :=
  let v :=
    if v.host = [] then
      { v with host := getenv "HOST".toList, lookups := v.lookups ++ [.osGetenv "HOST".toList] }
    else v
  if v.host = [] then { v with host := "0.0.0.0".toList } else v

/-- Lines 132-140 of `server`: port from `--port`, then `-p`, then `PORT`, then
`8080`. -/
def server.resolvePort (getenv : GoString → GoString) (p : GoString) (v : serverVars) :
    serverVars :=
  let v := if v.port = [] then { v with port := p } else v
  let v :=
    if v.port = [] then
      { v with port := getenv "PORT".toList, lookups := v.lookups ++ [.osGetenv "PORT".toList] }
    else v
  if v.port = [] then { v with port := "8080".toList } else v

/-- Lines 141-145 of `server`: key file or key seed from the environment. -/
def server.resolveKey (settingsEnv : GoString → GoString) (v : serverVars) : serverVars :=
  if v.config.KeyFile = [] then
    { v with
      config := { v.config with KeyFile := settingsEnv "KEY_FILE".toList }
      lookups := v.lookups ++ [.settingsEnv "KEY_FILE".toList] }
  else if v.config.KeySeed = [] then
    { v with
      config := { v.config with KeySeed := settingsEnv "KEY".toList }
      lookups := v.lookups ++ [.settingsEnv "KEY".toList] }
  else v

/-- Lines 146-148 of `server`: auth from the flag, then `AUTH`. -/
def server.resolveAuth (getenv : GoString → GoString) (v : serverVars) : serverVars :=
  if v.config.Auth = [] then
    { v with
      config := { v.config with Auth := getenv "AUTH".toList }
      lookups := v.lookups ++ [.osGetenv "AUTH".toList] }
  else v

/-- Lines 109-112 and 126-148 of `server`: the variables as they stand when
`chserver.NewServer` is called. -/
def server.resolve (f : serverFlags) (getenv settingsEnv : GoString → GoString) : serverVars :=
  let v : serverVars :=
    { config := server.applyBackend (server.bound f) f.backend
      host := f.host, port := f.port, lookups := [] }
  let v := server.resolveHost getenv v
  let v := server.resolvePort getenv f.p v
  let v := server.resolveKey settingsEnv v
  server.resolveAuth getenv v

/-- The function `server`, from the return of `flags.Parse` to the launch of
`s.Start` (lines 109-171).  Log output is not recorded. -/
def server (f : serverFlags) (getenv settingsEnv : GoString → GoString)
    (newServer : chserver.Config → Bool) (writePid : Bool) : serverRun :=
  let config := server.applyBackend (server.bound f) f.backend
  if f.keygen ≠ [] then
    { lookups := [], GenerateKeyFile := some (f.keygen, config.KeySeed), NewServer := none
      Start := none, Debug := none, pidFile := false, fatal := false }
  else
    let v := server.resolve f getenv settingsEnv
    if newServer v.config then
      if f.pid && !writePid then
        { lookups := v.lookups, GenerateKeyFile := none, NewServer := some v.config
          Start := none, Debug := some f.v, pidFile := true, fatal := true }
      else
        { lookups := v.lookups, GenerateKeyFile := none, NewServer := some v.config
          Start := some (v.host, v.port), Debug := some f.v, pidFile := f.pid
          fatal := false }
    else
      { lookups := v.lookups, GenerateKeyFile := none, NewServer := some v.config
        Start := none, Debug := none, pidFile := false, fatal := true }

/-! ## `client` -/

/-- The values of the flags of `client` once `flags.Parse` has returned
without error, one field per flag (`header` is the mapping collected by
`headerFlags`), and `args`, the positional arguments `flags.Args()`. -/
structure clientFlags where
  fingerprint : GoString
  auth : GoString
  keepalive : Int
  maxRetryCount : Int
  maxRetryInterval : Int
  proxy : GoString
  tlsCA : GoString
  tlsSkipVerify : Bool
  tlsCert : GoString
  tlsKey : GoString
  header : http.Header
  hostname : GoString
  sni : GoString
  pid : Bool
  v : Bool
  args : List GoString
  deriving DecidableEq, Repr

/-- What one run of `client` does up to the launch of the engine: the
environment reads, the message of `log.Fatalf` when the positional arguments
are rejected, the argument of `chclient.NewClient` when it is called, whether
`c.Start` is launched, the value given to `c.Debug`, whether
`generatePidFile` is called, and whether a fatal log call ended the run. -/
structure clientRun where
  lookups : List EnvLookup
  Fatalf : Option GoString
  NewClient : Option chclient.Config
  Start : Bool
  Debug : Option Bool
  pidFile : Bool
  fatal : Bool
  deriving DecidableEq, Repr

/-- Lines 195-207 of `client`: `config` as the flag bindings leave it after
parsing; the fields no flag is bound to hold their zero value. -/
def client.bound (f : clientFlags) : chclient.Config :=
  { Fingerprint := f.fingerprint, Auth := f.auth, KeepAlive := f.keepalive
    MaxRetryCount := f.maxRetryCount, MaxRetryInterval := f.maxRetryInterval
    Server := [], Proxy := f.proxy, Remotes := [], Headers := f.header
    TLS := { SkipVerify := f.tlsSkipVerify, CA := f.tlsCA, Cert := f.tlsCert, Key := f.tlsKey
             ServerName := [] } }

/-- Lines 226-238 of `client`: the configuration as it stands when
`chclient.NewClient` is called, with the environment reads made. -/
def client.resolve (f : clientFlags) (getenv : GoString → GoString) :
    chclient.Config × List EnvLookup :=
  let config := client.bound f
  let config := { config with Server := f.args.getD 0 [] }
  let config := { config with Remotes := f.args.drop 1 }
  let r : chclient.Config × List EnvLookup :=
    if config.Auth = [] then
      ({ config with Auth := getenv "AUTH".toList }, [.osGetenv "AUTH".toList])
    else (config, [])
  let config := r.1
  let config :=
    if f.hostname ≠ [] then
      let config := { config with Headers := config.Headers.Set "Host".toList f.hostname }
      { config with TLS := { config.TLS with ServerName := f.hostname } }
    else config
  let config :=
    if f.sni ≠ [] then { config with TLS := { config.TLS with ServerName := f.sni } }
    else config
  (config, r.2)

/-- The function `client`, from the return of `flags.Parse` to the launch of
`c.Start` (lines 222-262).  Log output other than the fatal message is not
recorded. -/
def client (f : clientFlags) (getenv : GoString → GoString)
    (newClient : chclient.Config → Bool) (writePid : Bool) : clientRun :=
  if f.args.length < 2 then
    { lookups := [], Fatalf := some "A server and at least one remote is required".toList
      NewClient := none, Start := false, Debug := none, pidFile := false, fatal := true }
  else
    let r := client.resolve f getenv
    if newClient r.1 then
      if f.pid && !writePid then
        { lookups := r.2, Fatalf := none, NewClient := some r.1, Start := false
          Debug := some f.v, pidFile := true, fatal := true }
      else
        { lookups := r.2, Fatalf := none, NewClient := some r.1, Start := true
          Debug := some f.v, pidFile := f.pid, fatal := false }
    else
      { lookups := r.2, Fatalf := none, NewClient := some r.1, Start := false
        Debug := none, pidFile := false, fatal := true }

/-! ## Flag defaults -/

/-- The flag values of `server` when no flag is given: the defaults declared at
lines 80-99 (`0` stands for the nil domain list, the duration is in
nanoseconds). -/
def server.defaults : serverFlags :=
  { key := [], keyfile := [], authfile := [], auth := [], keepalive := 25 * 1000000000
    proxy := [], backend := [], socks5 := false, reverse := false, tlsKey := [], tlsCert := []
    tlsDomain := [], tlsCA := [], host := [], p := [], port := [], pid := false, v := false
    keygen := [] }

/-- The flag values of `client` when no flag is given: the defaults declared at
lines 195-212, with the positional arguments `args`. -/
def client.defaults (args : List GoString) : clientFlags :=
  { fingerprint := [], auth := [], keepalive := 25 * 1000000000, maxRetryCount := -1
    maxRetryInterval := 0, proxy := [], tlsCA := [], tlsSkipVerify := false, tlsCert := []
    tlsKey := [], header := [], hostname := [], sni := [], pid := false, v := false
    args := args }

/-- An environment, as the function `os.Getenv` computes from a list of
`NAME=value` bindings: the first binding of the name, or the empty string. -/
def environ : List (GoString × GoString) → GoString → GoString
  | [], _ => []
  | (n, v) :: rest, name => if n = name then v else environ rest name

/-! ## Shutdown orchestration

The second half of `server` (lines 150-191) and of `client` (lines 240-282)
with `handleInterrupt` (lines 284-291), as an interleaving of the goroutines
they launch.  One step is one statement of one goroutine, or the arrival of an
operating-system signal.  Time is abstracted: the timeout branch of the final
`select` may be taken whenever the main goroutine stands at it. -/

namespace Orchestrator

/-- The two functions sharing the orchestration. -/
inductive Mode where
  | server
  | client
  deriving DecidableEq, Repr

/-- The statements of the main goroutine, named after what they do. -/
inductive MainPc where
  /-- Statement `chserver.NewServer(config)` (150) or `chclient.NewClient(&config)` (247). -/
  | newEngine
  /-- Statements `if *pid ...generatePidFile()` and `go cos.GoStats()` (155-158, 252-255). -/
  | pidFile
  /-- Statement `ctx, cancel := context.WithCancel(context.Background())` (161, 241). -/
  | withCancel
  /-- Statement `go handleInterrupt(cancel)` (164, 244). -/
  | goHandleInterrupt
  /-- Launch of the goroutine calling `Start` (167-171, 258-262). -/
  | goStart
  /-- Receive `<-ctx.Done()` (174, 265). -/
  | waitDone
  /-- Creation of `done` and launch of the goroutine calling `Close` (177-183, 268-274). -/
  | goClose
  /-- The `select` between `<-done` and `<-time.After(10 * time.Second)` (185-190, 276-281). -/
  | selectDone
  deriving DecidableEq, Repr

/-- The statements of `handleInterrupt`. -/
inductive HandlerPc where
  | notSpawned
  /-- Statements `sigChan := make(chan os.Signal, 1)` and `signal.Notify(sigChan, ...)`. -/
  | notify
  /-- Receive `<-sigChan`. -/
  | receive
  /-- Statements `fmt.Println(...)` and `cancel()`. -/
  | cancel
  /-- The last `fmt.Println` of `handleInterrupt`. -/
  | println
  | returned
  deriving DecidableEq, Repr

/-- The goroutine running the engine's `Start`. -/
inductive StartPc where
  | notSpawned
  /-- About to call `s.Start(*host, *port)` or `c.Start(ctx)`. -/
  | call
  /-- Inside `Start`. -/
  | running
  | returned
  deriving DecidableEq, Repr

/-- The goroutine running the engine's `Close`. -/
inductive ClosePc where
  | notSpawned
  /-- About to call `s.Close()` or `c.Close()`. -/
  | call
  /-- Inside `Close`. -/
  | closing
  /-- After `Close` has returned (an error is only logged), about to `close(done)`. -/
  | closeDone
  | returned
  deriving DecidableEq, Repr

/-- How the process ended. -/
inductive Exit where
  /-- The function returned and `main` after it: status 0. -/
  | normal
  /-- A call of `log.Fatal`: status 1. -/
  | fatal
  /-- Killed by a signal no handler was registered for. -/
  | killed
  deriving DecidableEq, Repr

/-- The state of one run. -/
structure State where
  main : MainPc
  handler : HandlerPc
  start : StartPc
  close : ClosePc
  /-- Whether the engine constructor has returned without error. -/
  engine : Bool
  /-- Whether `ctx.Done()` is closed. -/
  ctxCancelled : Bool
  /-- Whether `signal.Notify` has registered `sigChan`. -/
  notified : Bool
  /-- Whether a signal sits in the one-slot buffer of `sigChan`. -/
  sigBuffered : Bool
  /-- Number of SIGINT/SIGTERM signals the operating system has sent. -/
  delivered : Nat
  /-- Number of signals `handleInterrupt` has received from `sigChan`. -/
  received : Nat
  /-- Number of times the engine's `Close` has been called. -/
  closeCalls : Nat
  /-- Whether the channel `done` is closed. -/
  doneClosed : Bool
  exited : Option Exit
  deriving DecidableEq, Repr

/-- The possible steps.  The flag of a goroutine step chooses the outcome where
the statement has two: construction, PID file, `Start` and `Close` succeed
(`true`) or fail, and the `select` takes `<-done` (`true`) or the timeout. -/
inductive Action where
  | main (ok : Bool)
  | handler
  | start (ok : Bool)
  | close (ok : Bool)
  | signal
  deriving DecidableEq, Repr

/-- The first statement of the orchestration in each function. -/
def entry : Mode → MainPc
  | .server => .newEngine
  | .client => .withCancel

/-- The statement following `pc` in the text of each function; the `select`
is the last one. -/
def next : Mode → MainPc → MainPc
  | .server, .newEngine => .pidFile
  | .server, .pidFile => .withCancel
  | .server, .withCancel => .goHandleInterrupt
  | .server, .goHandleInterrupt => .goStart
  | .client, .withCancel => .goHandleInterrupt
  | .client, .goHandleInterrupt => .newEngine
  | .client, .newEngine => .pidFile
  | .client, .pidFile => .goStart
  | _, .goStart => .waitDone
  | _, .waitDone => .goClose
  | _, .goClose => .selectDone
  | _, .selectDone => .selectDone

/-- The state in which the orchestration starts. -/
def init (mode : Mode) : State :=
  { main := entry mode, handler := .notSpawned, start := .notSpawned, close := .notSpawned
    engine := false, ctxCancelled := false, notified := false, sigBuffered := false
    delivered := 0, received := 0, closeCalls := 0, doneClosed := false, exited := none }

/-- One statement of the main goroutine. -/
def stepMain (mode : Mode) (s : State) (ok : Bool) : Option State :=
  match s.main with
  | .newEngine =>
    if ok then some { s with engine := true, main := next mode .newEngine }
    else some { s with exited := some .fatal }
  | .pidFile =>
    if ok then some { s with main := next mode .pidFile }
    else some { s with exited := some .fatal }
  | .withCancel => some { s with main := next mode .withCancel }
  | .goHandleInterrupt =>
    some { s with handler := .notify, main := next mode .goHandleInterrupt }
  | .goStart => some { s with start := .call, main := next mode .goStart }
  | .waitDone =>
    if s.ctxCancelled then some { s with main := next mode .waitDone } else none
  | .goClose => some { s with close := .call, main := next mode .goClose }
  | .selectDone =>
    if ok then
      if s.doneClosed then some { s with exited := some .normal } else none
    else some { s with exited := some .normal }

/-- One statement of `handleInterrupt`. -/
def stepHandler (s : State) : Option State :=
  match s.handler with
  | .notSpawned => none
  | .notify => some { s with notified := true, handler := .receive }
  | .receive =>
    if s.sigBuffered then
      some { s with sigBuffered := false, received := s.received + 1, handler := .cancel }
    else none
  | .cancel => some { s with ctxCancelled := true, handler := .println }
  | .println => some { s with handler := .returned }
  | .returned => none

/-- One step of the goroutine around `Start`. -/
def stepStart (s : State) (ok : Bool) : Option State :=
  match s.start with
  | .notSpawned => none
  | .call => some { s with start := .running }
  | .running =>
    if ok then some { s with start := .returned }
    else some { s with exited := some .fatal }
  | .returned => none

/-- One step of the goroutine around `Close`. -/
def stepClose (s : State) : Option State :=
  match s.close with
  | .notSpawned => none
  | .call => some { s with closeCalls := s.closeCalls + 1, close := .closing }
  | .closing => some { s with close := .closeDone }
  | .closeDone => some { s with doneClosed := true, close := .returned }
  | .returned => none

/-- The arrival of SIGINT or SIGTERM: queued on `sigChan` when it is
registered and has room, dropped when the buffer is full, and fatal to the
process while no handler is registered. -/
def stepSignal (s : State) : Option State :=
  if s.notified then
    some { s with sigBuffered := true, delivered := s.delivered + 1 }
  else
    some { s with delivered := s.delivered + 1, exited := some .killed }

/-- The step function: `none` when the action is not enabled.  Nothing runs
once the process has exited. -/
def step (mode : Mode) (s : State) (a : Action) : Option State :=
  if s.exited.isSome then none
  else
    match a with
    | .main ok => stepMain mode s ok
    | .handler => stepHandler s
    | .start ok => stepStart s ok
    | .close _ => stepClose s
    | .signal => stepSignal s

/-- The state reached from `s` by a sequence of actions, `none` if one of them
is not enabled when its turn comes. -/
def run (mode : Mode) : State → List Action → Option State
  | s, [] => some s
  | s, a :: rest =>
    match step mode s a with
    | none => none
    | some s1 => run mode s1 rest

/-- The states some schedule leads to from the initial one. -/
def Reachable (mode : Mode) (s : State) : Prop :=
  ∃ acts : List Action, run mode (init mode) acts = some s

/-- The inductive invariant behind the ordering guarantee. -/
def Inv (mode : Mode) (s : State) : Prop :=
  s.closeCalls ≤ 1 ∧
  (s.close = .notSpawned ∨ s.close = .call → s.closeCalls = 0) ∧
  (s.close ≠ .notSpawned → s.main = .selectDone) ∧
  (s.main = .goClose ∨ s.main = .selectDone → s.engine = true ∧ s.ctxCancelled = true) ∧
  (s.main = .goStart ∨ s.main = .waitDone → s.engine = true) ∧
  (mode = .server → s.main = .pidFile ∨ s.main = .withCancel ∨ s.main = .goHandleInterrupt →
    s.engine = true) ∧
  (mode = .client → s.main = .pidFile → s.engine = true) ∧
  (s.ctxCancelled = true → 0 < s.received) ∧
  (s.handler = .cancel ∨ s.handler = .println ∨ s.handler = .returned → 0 < s.received) ∧
  (0 < s.received → 0 < s.delivered) ∧
  (s.sigBuffered = true → 0 < s.delivered)

end Orchestrator

/-! ## Lemmas on strings and headers -/

theorem strings.Index_ge (s : GoString) (c : Char) : -1 ≤ strings.Index s c := by
  induction s with
  | nil => simp [strings.Index]
  | cons a t ih =>
    simp only [strings.Index]
    split_ifs <;> omega

theorem strings.Index_neg_iff (s : GoString) (c : Char) : strings.Index s c < 0 ↔ c ∉ s := by
  induction s with
  | nil => simp [strings.Index]
  | cons a t ih =>
    have hge := strings.Index_ge t c
    simp only [strings.Index, List.mem_cons, not_or]
    by_cases hac : a = c
    · simp [hac]
    · have hca : ¬ c = a := fun h => hac h.symm
      simp only [hac, if_false, hca, not_false_eq_true, true_and]
      rw [← ih]
      split_ifs <;> omega

/-- The cut made at `strings.Index`: the text before the first separator,
which holds no separator, then the separator, then the rest. -/
theorem strings.Index_split (s : GoString) (c : Char) (h : c ∈ s) :
    s = s.take (strings.Index s c).toNat ++ c :: s.drop ((strings.Index s c).toNat + 1) ∧
    c ∉ s.take (strings.Index s c).toNat := by
  induction s with
  | nil => simp at h
  | cons a t ih =>
    by_cases hac : a = c
    · simp [strings.Index, hac]
    · have hct : c ∈ t := by
        rcases List.mem_cons.mp h with h1 | h1
        · exact absurd h1.symm hac
        · exact h1
      have hnn : ¬ strings.Index t c < 0 := by
        rw [strings.Index_neg_iff]; exact fun hn => hn hct
      obtain ⟨ih1, ih2⟩ := ih hct
      have hnat : (strings.Index t c + 1).toNat = (strings.Index t c).toNat + 1 := by omega
      have hca : ¬ c = a := fun h => hac h.symm
      simp only [strings.Index, hac, if_false, hnn, hnat, List.take_succ_cons,
        List.drop_succ_cons, List.cons_append, List.mem_cons, hca, false_or]
      exact ⟨by rw [← ih1], ih2⟩

/-- What `strings.TrimSpace` removes and what it leaves: white space before,
white space after, and a middle that neither starts nor ends with white space. -/
theorem strings.TrimSpace_spec (s : GoString) :
    ∃ pre post : GoString,
      s = pre ++ strings.TrimSpace s ++ post ∧
      (∀ c ∈ pre, strings.IsSpace c = true) ∧ (∀ c ∈ post, strings.IsSpace c = true) ∧
      (∀ c, (strings.TrimSpace s).head? = some c → strings.IsSpace c = false) ∧
      (∀ c, (strings.TrimSpace s).getLast? = some c → strings.IsSpace c = false) := by
  refine ⟨s.takeWhile strings.IsSpace, (s.dropWhile strings.IsSpace).rtakeWhile strings.IsSpace,
    ?_, ?_, ?_, ?_, ?_⟩
  · have h1 : (s.dropWhile strings.IsSpace).rdropWhile strings.IsSpace ++
        (s.dropWhile strings.IsSpace).rtakeWhile strings.IsSpace = s.dropWhile strings.IsSpace := by
      simp only [List.rdropWhile, List.rtakeWhile, ← List.reverse_append,
        List.takeWhile_append_dropWhile, List.reverse_reverse]
    unfold strings.TrimSpace
    rw [List.append_assoc, h1, List.takeWhile_append_dropWhile]
  · intro c hc
    exact List.mem_takeWhile_imp hc
  · intro c hc
    exact List.mem_rtakeWhile_imp hc
  · intro c hc
    unfold strings.TrimSpace at hc
    obtain ⟨t, ht⟩ := List.rdropWhile_prefix strings.IsSpace (l := s.dropWhile strings.IsSpace)
    have hne : s.dropWhile strings.IsSpace ≠ [] := by
      intro h0
      rw [h0] at hc
      simp at hc
    have hhead := List.head_dropWhile_not strings.IsSpace s hne
    have : (s.dropWhile strings.IsSpace).head? = some c := by
      rw [← ht, List.head?_append, hc]; rfl
    rw [List.head?_eq_head hne] at this
    rw [← Option.some.inj this]
    exact hhead
  · intro c hc
    unfold strings.TrimSpace at hc
    have hne : (s.dropWhile strings.IsSpace).rdropWhile strings.IsSpace ≠ [] := by
      intro h0
      rw [h0] at hc
      simp at hc
    have hlast := List.rdropWhile_last_not strings.IsSpace _ hne
    rw [List.getLast?_eq_getLast _ hne] at hc
    rw [← Option.some.inj hc]
    simpa using hlast

theorem http.Header.lookup_store (h : http.Header) (k k1 : GoString) (vs : List GoString) :
    (h.store k vs).lookup k1 = if k1 = k then some vs else h.lookup k1 := by
  induction h with
  | nil =>
    by_cases hk : k1 = k
    · simp [http.Header.store, http.Header.lookup, hk]
    · have hk2 : ¬ k = k1 := fun e => hk e.symm
      simp [http.Header.store, http.Header.lookup, hk, hk2]
  | cons e rest ih =>
    obtain ⟨k0, vs0⟩ := e
    by_cases h0 : k0 = k
    · by_cases hk : k1 = k
      · simp [http.Header.store, http.Header.lookup, h0, hk]
      · have hk2 : ¬ k = k1 := fun e => hk e.symm
        simp [http.Header.store, http.Header.lookup, h0, hk, hk2]
    · by_cases hk : k1 = k
      · subst hk
        simp [http.Header.store, http.Header.lookup, h0, ih]
      · simp only [http.Header.store, h0, if_false, http.Header.lookup, ih, hk]

theorem textproto.scanKey_true (a : GoString) : textproto.scanKey a true ≠ some false := by
  induction a with
  | nil => simp [textproto.scanKey]
  | cons c cs ih =>
    simp only [textproto.scanKey]
    split_ifs
    · exact ih
    · exact ih
    · simp

theorem textproto.scanKey_false (a : GoString) :
    textproto.scanKey a false = some false ↔ a.all textproto.validHeaderFieldByte = true := by
  induction a with
  | nil => simp [textproto.scanKey]
  | cons c cs ih =>
    simp only [textproto.scanKey, List.all_cons, Bool.and_eq_true]
    by_cases hv : textproto.validHeaderFieldByte c = true
    · simp [hv, ih]
    · rw [if_neg hv]
      by_cases hsp : c = ' '
      · rw [if_pos hsp]
        exact ⟨fun h => absurd h (textproto.scanKey_true cs), fun h => absurd h.1 hv⟩
      · rw [if_neg hsp]
        exact ⟨fun h => by simp at h, fun h => absurd h.1 hv⟩

theorem textproto.canonicalMIMEHeaderKey_fst (a : GoString) :
    (textproto.canonicalMIMEHeaderKey a).1 =
      if a.all textproto.validHeaderFieldByte = true then textproto.canonLoop true a else a := by
  unfold textproto.canonicalMIMEHeaderKey
  by_cases hv : a.all textproto.validHeaderFieldByte = true
  · rw [(textproto.scanKey_false a).mpr hv]
    simp [hv]
  · have hs : textproto.scanKey a false ≠ some false := fun h => hv ((textproto.scanKey_false a).mp h)
    rw [if_neg hv]
    split
    · rfl
    · rfl
    · rename_i heq
      exact absurd heq hs

theorem textproto.quickCheck_cases (s : GoString) (upper : Bool) (rest : GoString)
    (hv : rest.all textproto.validHeaderFieldByte = true) :
    (textproto.quickCheck s upper rest = s ∧ textproto.canonLoop upper rest = rest) ∨
    textproto.quickCheck s upper rest = (textproto.canonicalMIMEHeaderKey s).1 := by
  induction rest generalizing upper with
  | nil => left; simp [textproto.quickCheck, textproto.canonLoop]
  | cons c cs ih =>
    simp only [List.all_cons, Bool.and_eq_true] at hv
    obtain ⟨hc, hcs⟩ := hv
    simp only [textproto.quickCheck, hc, Bool.not_true, Bool.false_eq_true, if_false,
      textproto.canonLoop]
    by_cases h1 : (upper && textproto.isLowerAZ c) = true
    · right; simp [h1]
    · by_cases h2 : (!upper && textproto.isUpperAZ c) = true
      · right; simp [h1, h2]
      · simp only [h1, h2, if_false]
        rcases ih (decide (c = '-')) hcs with ⟨e1, e2⟩ | e
        · left; exact ⟨e1, by simp [e2]⟩
        · right; exact e

theorem textproto.quickCheck_invalid (s : GoString) (upper : Bool) (rest : GoString) :
    textproto.quickCheck s upper rest = s ∨
    textproto.quickCheck s upper rest = (textproto.canonicalMIMEHeaderKey s).1 := by
  induction rest generalizing upper with
  | nil => left; simp [textproto.quickCheck]
  | cons c cs ih =>
    simp only [textproto.quickCheck]
    split_ifs
    · left; rfl
    · right; rfl
    · right; rfl
    · exact ih _

/-- The closed form of `textproto.CanonicalMIMEHeaderKey`: a key made of token
bytes only is rewritten with an upper-case letter first and after each dash and
lower-case letters elsewhere; any other key is returned as it is. -/
theorem textproto.CanonicalMIMEHeaderKey_eq (s : GoString) :
    textproto.CanonicalMIMEHeaderKey s =
      if s.all textproto.validHeaderFieldByte = true then textproto.canonLoop true s else s := by
  unfold textproto.CanonicalMIMEHeaderKey
  by_cases hv : s.all textproto.validHeaderFieldByte = true
  · rw [if_pos hv]
    rcases textproto.quickCheck_cases s true s hv with ⟨e1, e2⟩ | e
    · rw [e1, e2]
    · rw [e, textproto.canonicalMIMEHeaderKey_fst, if_pos hv]
  · rw [if_neg hv]
    rcases textproto.quickCheck_invalid s true s with e | e
    · exact e
    · rw [e, textproto.canonicalMIMEHeaderKey_fst, if_neg hv]

/-- The receiver and the error after a successful `headerFlags.Set`, in terms
of the cut at the first colon. -/
theorem headerFlags.Set_of_mem (flag : headerFlags) (arg : GoString) (hc : ':' ∈ arg) :
    flag.Set arg =
      ({ Header := some (flag.mapping.Add (arg.take (strings.Index arg ':').toNat)
          (strings.TrimSpace (arg.drop ((strings.Index arg ':').toNat + 1)))) }, none) := by
  have hnn : ¬ strings.Index arg ':' < 0 := by
    rw [strings.Index_neg_iff]; exact fun hn => hn hc
  unfold headerFlags.Set headerFlags.mapping
  simp only [hnn, if_false]

theorem strings.Index_append_sep (name rest : GoString) (c : Char) (hn : c ∉ name) :
    strings.Index (name ++ c :: rest) c = name.length := by
  induction name with
  | nil => simp [strings.Index]
  | cons a t ih =>
    simp only [List.mem_cons, not_or] at hn
    have hac : ¬ a = c := fun e => hn.1 e.symm
    have ih2 := ih hn.2
    have hstep : strings.Index (a :: (t ++ c :: rest)) c =
        if strings.Index (t ++ c :: rest) c < 0 then -1
        else strings.Index (t ++ c :: rest) c + 1 := by
      simp [strings.Index, hac]
    rw [List.cons_append, hstep, ih2, List.length_cons]
    split_ifs with h
    · omega
    · push_cast; rfl

/-- The receiver and the error after `headerFlags.Set` on an argument written
as a name without colon, a colon, and the rest. -/
theorem headerFlags.Set_split (flag : headerFlags) (name rest : GoString) (hn : ':' ∉ name) :
    flag.Set (name ++ ':' :: rest) =
      ({ Header := some (flag.mapping.Add name (strings.TrimSpace rest)) }, none) := by
  have hc : ':' ∈ name ++ ':' :: rest := by simp
  rw [headerFlags.Set_of_mem flag _ hc, strings.Index_append_sep name rest ':' hn]
  simp

theorem multiFlag.SetAll_values (flag : multiFlag) (args : List GoString) :
    (multiFlag.SetAll flag args).1.values = flag.values ++ args := by
  induction args generalizing flag with
  | nil => simp [multiFlag.SetAll]
  | cons a rest ih => simp [multiFlag.SetAll, ih, multiFlag.Set]

theorem multiFlag.SetAll_errors (flag : multiFlag) (args : List GoString) :
    (multiFlag.SetAll flag args).2 = List.replicate args.length none := by
  induction args generalizing flag with
  | nil => simp [multiFlag.SetAll]
  | cons a rest ih => simp [multiFlag.SetAll, ih, multiFlag.Set, List.replicate_succ]

/-! ## The flag value types -/

/-- C9: `multiFlag.Set` appends its argument at the end of the backing list and
returns no error, whatever the argument; after the calls for `a1..an` the list
is the initial list followed by `a1..an` in order and every call returned nil;
from the empty list the result is the argument list itself, so its length is
the number of occurrences. -/
theorem multiFlag_Set_appends_in_order (l args : List GoString) (a : GoString) :
    multiFlag.Set { values := l } a = ({ values := l ++ [a] }, none) ∧
    (multiFlag.SetAll { values := l } args).1.values = l ++ args ∧
    (multiFlag.SetAll { values := l } args).2 = List.replicate args.length none ∧
    (multiFlag.SetAll { values := [] } args).1.values = args ∧
    (multiFlag.SetAll { values := [] } args).1.values.length = args.length := by
  refine ⟨rfl, multiFlag.SetAll_values _ _, multiFlag.SetAll_errors _ _, ?_, ?_⟩
  · simp [multiFlag.SetAll_values]
  · simp [multiFlag.SetAll_values]

/-- C3: `headerFlags.Set` returns an error exactly when its argument holds no
colon, and then the receiver, hence its mapping, is what it was before the
call. -/
theorem headerFlags_Set_error_iff_no_colon (flag : headerFlags) (arg : GoString) :
    ((flag.Set arg).2 ≠ none ↔ ':' ∉ arg) ∧
    (':' ∉ arg → (flag.Set arg).1 = flag ∧ (flag.Set arg).1.mapping = flag.mapping) := by
  by_cases hc : ':' ∈ arg
  · rw [headerFlags.Set_of_mem flag arg hc]
    simp [hc]
  · have hneg : strings.Index arg ':' < 0 := (strings.Index_neg_iff arg ':').mpr hc
    simp [headerFlags.Set, hneg, hc]

/-- C3 on `x-token` without colon and a one-entry mapping: an error is returned
and the mapping is the same. -/
theorem headerFlags_Set_error_iff_no_colon_witness :
    (headerFlags.Set { Header := some [("A".toList, ["b".toList])] } "x-token".toList).2 ≠ none ∧
    (headerFlags.Set { Header := some [("A".toList, ["b".toList])] } "x-token".toList).1 =
      { Header := some [("A".toList, ["b".toList])] } :=
  ⟨(headerFlags_Set_error_iff_no_colon { Header := some [("A".toList, ["b".toList])] }
      "x-token".toList).1.mpr (by decide),
   ((headerFlags_Set_error_iff_no_colon { Header := some [("A".toList, ["b".toList])] }
      "x-token".toList).2 (by decide)).1⟩

/-- C2, as stated, fails: after `Set("x-token: abc")` on an empty mapping no
entry has the key `x-token`; the only entry has the key `X-Token`. -/
theorem headerFlags_Set_key_is_not_verbatim :
    ((headerFlags.Set { Header := some [] } "x-token: abc".toList).1.mapping.lookup
      "x-token".toList = none) ∧
    (headerFlags.Set { Header := some [] } "x-token: abc".toList).1.mapping =
      [("X-Token".toList, ["abc".toList])] := by
  decide

/-- C2, amended: for an argument made of a name without colon, a colon and the
rest, after `Set` the mapping has an entry under the canonical MIME form of the
name whose values contain the rest trimmed of surrounding white space; the
name itself is not trimmed, and the canonical form is the name with an
upper-case letter first and after each dash and lower-case letters elsewhere
when the name is made of token characters only, and the name unchanged
otherwise. -/
theorem headerFlags_Set_contains_canonical (flag : headerFlags) (name rest : GoString)
    (hn : ':' ∉ name) :
    (∃ vs, (flag.Set (name ++ ':' :: rest)).1.mapping.lookup
        (textproto.CanonicalMIMEHeaderKey name) = some vs ∧ strings.TrimSpace rest ∈ vs) ∧
    textproto.CanonicalMIMEHeaderKey name =
      (if name.all textproto.validHeaderFieldByte = true then textproto.canonLoop true name
       else name) := by
  refine ⟨?_, textproto.CanonicalMIMEHeaderKey_eq name⟩
  rw [headerFlags.Set_split flag name rest hn]
  refine ⟨flag.mapping.index (textproto.CanonicalMIMEHeaderKey name) ++ [strings.TrimSpace rest],
    ?_, by simp⟩
  simp [headerFlags.mapping, http.Header.Add, http.Header.lookup_store]

/-- C2, amended, on `x-token: abc ` with a nil map: the name is not a colon-bearing
string and the entry sits under the canonical key. -/
theorem headerFlags_Set_contains_canonical_witness :
    (∃ vs, (headerFlags.Set { Header := none } ("x-token".toList ++ ':' :: " abc ".toList)).1.mapping.lookup
        (textproto.CanonicalMIMEHeaderKey "x-token".toList) = some vs ∧
        strings.TrimSpace " abc ".toList ∈ vs) ∧
    textproto.CanonicalMIMEHeaderKey "x-token".toList =
      (if "x-token".toList.all textproto.validHeaderFieldByte = true
       then textproto.canonLoop true "x-token".toList else "x-token".toList) :=
  headerFlags_Set_contains_canonical { Header := none } "x-token".toList " abc ".toList (by decide)

/-- C4, as stated, fails: with `X-Token` mapped to `[a]`, `Set("x-token: b:c")`
leaves the name `x-token` without entry and changes the entry of the other name
`X-Token`. -/
theorem headerFlags_Set_changes_other_name :
    ((headerFlags.Set { Header := some [("X-Token".toList, ["a".toList])] }
        "x-token: b:c".toList).1.mapping.lookup "x-token".toList = none) ∧
    ((headerFlags.Set { Header := some [("X-Token".toList, ["a".toList])] }
        "x-token: b:c".toList).1.mapping.lookup "X-Token".toList
      = some ["a".toList, "b:c".toList]) := by
  decide

/-- C4, amended: a successful `headerFlags.Set` cuts at the first colon and
appends.  For an argument made of a name without colon, a colon and the rest,
no error is returned; the entry under the canonical MIME form of the name is
its old value sequence (empty if absent) followed by one new element, hence
differs from the old one; that element is the rest without the white space
before and after it, later colons kept; every entry under another key is
unchanged; and a second `Set` with the same name appends after the first. -/
theorem headerFlags_Set_appends_under_canonical (flag : headerFlags) (name rest rest2 : GoString)
    (hn : ':' ∉ name) :
    (flag.Set (name ++ ':' :: rest)).2 = none ∧
    (flag.Set (name ++ ':' :: rest)).1.mapping.lookup (textproto.CanonicalMIMEHeaderKey name) =
      some (flag.mapping.index (textproto.CanonicalMIMEHeaderKey name) ++
        [strings.TrimSpace rest]) ∧
    (flag.Set (name ++ ':' :: rest)).1.mapping.index (textproto.CanonicalMIMEHeaderKey name) ≠
      flag.mapping.index (textproto.CanonicalMIMEHeaderKey name) ∧
    (∀ k, k ≠ textproto.CanonicalMIMEHeaderKey name →
      (flag.Set (name ++ ':' :: rest)).1.mapping.lookup k = flag.mapping.lookup k) ∧
    (∃ pre post : GoString,
      rest = pre ++ strings.TrimSpace rest ++ post ∧
      (∀ c ∈ pre, strings.IsSpace c = true) ∧ (∀ c ∈ post, strings.IsSpace c = true) ∧
      (∀ c, (strings.TrimSpace rest).head? = some c → strings.IsSpace c = false) ∧
      (∀ c, (strings.TrimSpace rest).getLast? = some c → strings.IsSpace c = false)) ∧
    (((flag.Set (name ++ ':' :: rest)).1.Set (name ++ ':' :: rest2)).1.mapping.index
        (textproto.CanonicalMIMEHeaderKey name) =
      flag.mapping.index (textproto.CanonicalMIMEHeaderKey name) ++
        [strings.TrimSpace rest, strings.TrimSpace rest2]) := by
  have hlk : (flag.Set (name ++ ':' :: rest)).1.mapping.lookup
      (textproto.CanonicalMIMEHeaderKey name) =
      some (flag.mapping.index (textproto.CanonicalMIMEHeaderKey name) ++
        [strings.TrimSpace rest]) := by
    rw [headerFlags.Set_split flag name rest hn]
    simp [headerFlags.mapping, http.Header.Add, http.Header.lookup_store]
  refine ⟨?_, hlk, ?_, ?_, strings.TrimSpace_spec rest, ?_⟩
  · rw [headerFlags.Set_split flag name rest hn]
  · intro h
    have hlen := congrArg List.length h
    simp [http.Header.index, hlk] at hlen
  · intro k hk
    rw [headerFlags.Set_split flag name rest hn]
    simp [headerFlags.mapping, http.Header.Add, http.Header.lookup_store, hk]
  · rw [headerFlags.Set_split _ name rest2 hn]
    simp only [headerFlags.mapping, http.Header.Add, http.Header.index,
      http.Header.lookup_store, if_true, Option.getD_some]
    have h2 := hlk
    simp only [headerFlags.mapping, http.Header.index] at h2
    rw [h2]
    simp

/-- C4, amended, on ` b:c ` added under `x-token` when `X-Token` holds `[a]`: the
value lands after `a` and keeps its inner colon. -/
theorem headerFlags_Set_appends_under_canonical_witness :
    ((headerFlags.Set { Header := some [("X-Token".toList, ["a".toList])] }
        ("x-token".toList ++ ':' :: " b:c ".toList)).1.mapping.lookup
        (textproto.CanonicalMIMEHeaderKey "x-token".toList) =
      some (http.Header.index [("X-Token".toList, ["a".toList])]
        (textproto.CanonicalMIMEHeaderKey "x-token".toList) ++
        [strings.TrimSpace " b:c ".toList])) ∧
    strings.TrimSpace " b:c ".toList = "b:c".toList :=
  ⟨(headerFlags_Set_appends_under_canonical
      { Header := some [("X-Token".toList, ["a".toList])] }
      "x-token".toList " b:c ".toList [] (by decide)).2.1, by decide⟩

/-! ## Configuration resolution -/

theorem server.resolvePort_port (getenv : GoString → GoString) (p : GoString) (v : serverVars) :
    (server.resolvePort getenv p v).port =
      if v.port ≠ [] then v.port
      else if p ≠ [] then p
      else if getenv "PORT".toList ≠ [] then getenv "PORT".toList
      else "8080".toList := by
  unfold server.resolvePort
  generalize getenv "PORT".toList = e
  generalize "8080".toList = d
  obtain ⟨c, h, port, l⟩ := v
  by_cases h1 : port = [] <;> by_cases h2 : p = [] <;> by_cases h3 : e = [] <;>
    simp [h1, h2, h3]

theorem server.resolve_port (f : serverFlags) (getenv settingsEnv : GoString → GoString) :
    (server.resolve f getenv settingsEnv).port =
      if f.port ≠ [] then f.port
      else if f.p ≠ [] then f.p
      else if getenv "PORT".toList ≠ [] then getenv "PORT".toList
      else "8080".toList := by
  have hk : ∀ v, (server.resolveKey settingsEnv v).port = v.port := by
    intro v; unfold server.resolveKey; split_ifs <;> rfl
  have ha : ∀ v, (server.resolveAuth getenv v).port = v.port := by
    intro v; unfold server.resolveAuth; split_ifs <;> rfl
  have hh : ∀ v, (server.resolveHost getenv v).port = v.port := by
    intro v; simp only [server.resolveHost]; split_ifs <;> rfl
  unfold server.resolve
  simp only [ha, hk, server.resolvePort_port, hh]

theorem server.resolve_config (f : serverFlags) (getenv settingsEnv : GoString → GoString) :
    (server.resolve f getenv settingsEnv).config =
      (server.resolveAuth getenv (server.resolveKey settingsEnv
        { config := server.applyBackend (server.bound f) f.backend
          host := f.host, port := f.port, lookups := [] })).config := by
  have hk : ∀ v w : serverVars, v.config = w.config →
      (server.resolveKey settingsEnv v).config = (server.resolveKey settingsEnv w).config := by
    intro v w h; simp only [server.resolveKey, h]; split_ifs <;> simp [h]
  have ha : ∀ v w : serverVars, v.config = w.config →
      (server.resolveAuth getenv v).config = (server.resolveAuth getenv w).config := by
    intro v w h; simp only [server.resolveAuth, h]; split_ifs <;> simp [h]
  have hh : ∀ v, (server.resolveHost getenv v).config = v.config := by
    intro v; simp only [server.resolveHost]; split_ifs <;> rfl
  have hp : ∀ p v, (server.resolvePort getenv p v).config = v.config := by
    intro p v; simp only [server.resolvePort]; split_ifs <;> rfl
  unfold server.resolve
  apply ha
  apply hk
  simp only [hp, hh]

theorem server.applyBackend_eq (config : chserver.Config) (backend : GoString) :
    server.applyBackend config backend =
      { config with Proxy := if backend ≠ [] then backend else config.Proxy } := by
  unfold server.applyBackend
  split_ifs <;> rfl

theorem server.resolve_proxy (f : serverFlags) (getenv settingsEnv : GoString → GoString) :
    (server.resolve f getenv settingsEnv).config.Proxy =
      if f.backend ≠ [] then f.backend else f.proxy := by
  rw [server.resolve_config, server.applyBackend_eq]
  simp only [server.resolveAuth, server.resolveKey, server.bound]
  split_ifs <;> rfl

theorem server.NewServer_of_keygen_nil (f : serverFlags) (getenv settingsEnv : GoString → GoString)
    (newServer : chserver.Config → Bool) (writePid : Bool) (hk : f.keygen = []) :
    (server f getenv settingsEnv newServer writePid).NewServer =
        some (server.resolve f getenv settingsEnv).config ∧
    (server f getenv settingsEnv newServer writePid).lookups =
        (server.resolve f getenv settingsEnv).lookups := by
  unfold server
  simp only [hk, ne_eq, not_true_eq_false, if_false]
  split_ifs <;> exact ⟨rfl, rfl⟩

/-- C1: when `server` reaches the engine (no `--keygen`, construction
succeeds), the port handed to `s.Start` is the `--port` value if non-empty,
else the `-p` value if non-empty, else the `PORT` environment value if
non-empty, else `8080`; so `PORT=9999` alone gives `9999` and nothing gives
`8080`. -/
theorem server_port_precedence (f : serverFlags) (getenv settingsEnv : GoString → GoString)
    (newServer : chserver.Config → Bool) (writePid : Bool) (hk : f.keygen = [])
    (hn : newServer (server.resolve f getenv settingsEnv).config = true)
    (hp : f.pid = true → writePid = true) :
    ((server f getenv settingsEnv newServer writePid).Start.map Prod.snd =
      some (if f.port ≠ [] then f.port
        else if f.p ≠ [] then f.p
        else if getenv "PORT".toList ≠ [] then getenv "PORT".toList
        else "8080".toList)) ∧
    (f.port = [] → f.p = [] → getenv "PORT".toList = "9999".toList →
      (server f getenv settingsEnv newServer writePid).Start.map Prod.snd = some "9999".toList) ∧
    (f.port = [] → f.p = [] → getenv "PORT".toList = [] →
      (server f getenv settingsEnv newServer writePid).Start.map Prod.snd = some "8080".toList) := by
  have hs : (server f getenv settingsEnv newServer writePid).Start.map Prod.snd =
      some (server.resolve f getenv settingsEnv).port := by
    unfold server
    by_cases hpid : f.pid = true
    · simp [hk, hn, hpid, hp hpid]
    · simp [hk, hn, hpid]
  rw [hs, server.resolve_port]
  refine ⟨rfl, ?_, ?_⟩
  · intro h1 h2 h3
    have h4 : getenv "PORT".toList ≠ [] := by rw [h3]; decide
    rw [if_neg (not_not.mpr h1), if_neg (not_not.mpr h2), if_pos h4, h3]
  · intro h1 h2 h3
    rw [if_neg (not_not.mpr h1), if_neg (not_not.mpr h2), if_neg (not_not.mpr h3)]

/-- C5: when `server` reaches the engine constructor (no `--keygen`), the
configuration handed to it has as proxy target the `--backend` value if that
is non-empty and the `--proxy` value otherwise; the override itself changes no
other field of the configuration. -/
theorem server_backend_overrides_proxy (f : serverFlags)
    (getenv settingsEnv : GoString → GoString) (newServer : chserver.Config → Bool)
    (writePid : Bool) (hk : f.keygen = []) :
    (∃ cfg, (server f getenv settingsEnv newServer writePid).NewServer = some cfg ∧
      cfg.Proxy = (if f.backend ≠ [] then f.backend else f.proxy) ∧
      (f.backend ≠ [] → cfg.Proxy = f.backend) ∧ (f.backend = [] → cfg.Proxy = f.proxy)) ∧
    server.applyBackend (server.bound f) f.backend =
      { server.bound f with Proxy := if f.backend ≠ [] then f.backend else f.proxy } := by
  refine ⟨⟨(server.resolve f getenv settingsEnv).config,
    (server.NewServer_of_keygen_nil f getenv settingsEnv newServer writePid hk).1,
    server.resolve_proxy f getenv settingsEnv, ?_, ?_⟩, server.applyBackend_eq _ _⟩
  · intro h; rw [server.resolve_proxy, if_pos h]
  · intro h; rw [server.resolve_proxy]; simp [h]

/-- C1 with no flag and `PORT=9999`: the engine is started on `0.0.0.0` and
`9999`. -/
theorem server_port_precedence_witness :
    (server server.defaults (environ [("PORT".toList, "9999".toList)]) (environ [])
      (fun _ => true) true).Start = some ("0.0.0.0".toList, "9999".toList) ∧
    (server server.defaults (environ [("PORT".toList, "9999".toList)]) (environ [])
      (fun _ => true) true).Start.map Prod.snd = some "9999".toList :=
  ⟨by decide,
   (server_port_precedence server.defaults (environ [("PORT".toList, "9999".toList)])
      (environ []) (fun _ => true) true rfl rfl (fun _ => rfl)).2.1 rfl rfl (by decide)⟩

/-- C5 with both `--proxy` and `--backend`: the backend is the proxy target. -/
theorem server_backend_overrides_proxy_witness :
    ∃ cfg, (server { server.defaults with proxy := "http://x".toList, backend := "http://y".toList }
        (environ []) (environ []) (fun _ => true) true).NewServer = some cfg ∧
      cfg.Proxy = "http://y".toList :=
  let h := (server_backend_overrides_proxy
    { server.defaults with proxy := "http://x".toList, backend := "http://y".toList }
    (environ []) (environ []) (fun _ => true) true rfl).1
  ⟨h.choose, h.choose_spec.1, h.choose_spec.2.2.1 (by decide)⟩

theorem server.resolveHost_lookups (getenv : GoString → GoString) (v : serverVars) :
    (server.resolveHost getenv v).lookups =
      v.lookups ++ (if v.host = [] then [EnvLookup.osGetenv "HOST".toList] else []) ∧
    (server.resolveHost getenv v).config = v.config ∧
    (server.resolveHost getenv v).port = v.port := by
  unfold server.resolveHost
  generalize getenv "HOST".toList = e
  generalize EnvLookup.osGetenv "HOST".toList = l
  obtain ⟨c, h, port, ls⟩ := v
  by_cases h1 : h = [] <;> by_cases h2 : e = [] <;> simp [h1, h2]

theorem server.resolvePort_lookups (getenv : GoString → GoString) (p : GoString)
    (v : serverVars) :
    (server.resolvePort getenv p v).lookups =
      v.lookups ++ (if v.port = [] ∧ p = [] then [EnvLookup.osGetenv "PORT".toList] else []) ∧
    (server.resolvePort getenv p v).config = v.config := by
  unfold server.resolvePort
  generalize getenv "PORT".toList = e
  generalize EnvLookup.osGetenv "PORT".toList = l
  obtain ⟨c, h, port, ls⟩ := v
  by_cases h1 : port = [] <;> by_cases h2 : p = [] <;> by_cases h3 : e = [] <;>
    simp [h1, h2, h3]

theorem server.resolveKey_lookups (settingsEnv : GoString → GoString) (v : serverVars) :
    (server.resolveKey settingsEnv v).lookups =
      v.lookups ++ (if v.config.KeyFile = [] then [EnvLookup.settingsEnv "KEY_FILE".toList]
        else if v.config.KeySeed = [] then [EnvLookup.settingsEnv "KEY".toList] else []) ∧
    (server.resolveKey settingsEnv v).config.Auth = v.config.Auth ∧
    (server.resolveKey settingsEnv v).config.KeyFile =
      (if v.config.KeyFile = [] then settingsEnv "KEY_FILE".toList else v.config.KeyFile) ∧
    (server.resolveKey settingsEnv v).config.KeySeed =
      (if v.config.KeyFile = [] then v.config.KeySeed
       else if v.config.KeySeed = [] then settingsEnv "KEY".toList else v.config.KeySeed) := by
  unfold server.resolveKey
  split_ifs with h1 h2
  · simp [h1]
  · simp [h2]
  · simp

theorem server.resolveAuth_lookups (getenv : GoString → GoString) (v : serverVars) :
    (server.resolveAuth getenv v).lookups =
      v.lookups ++ (if v.config.Auth = [] then [EnvLookup.osGetenv "AUTH".toList] else []) ∧
    (server.resolveAuth getenv v).config.KeyFile = v.config.KeyFile ∧
    (server.resolveAuth getenv v).config.KeySeed = v.config.KeySeed := by
  unfold server.resolveAuth
  split_ifs with h1
  · exact ⟨rfl, rfl, rfl⟩
  · simp

theorem server.applyBackend_fields (config : chserver.Config) (backend : GoString) :
    (server.applyBackend config backend).KeyFile = config.KeyFile ∧
    (server.applyBackend config backend).KeySeed = config.KeySeed ∧
    (server.applyBackend config backend).Auth = config.Auth := by
  unfold server.applyBackend
  split_ifs <;> exact ⟨rfl, rfl, rfl⟩

theorem server.resolve_lookups (f : serverFlags) (getenv settingsEnv : GoString → GoString) :
    (server.resolve f getenv settingsEnv).lookups =
      (if f.host = [] then [EnvLookup.osGetenv "HOST".toList] else []) ++
      (if f.port = [] ∧ f.p = [] then [EnvLookup.osGetenv "PORT".toList] else []) ++
      (if f.keyfile = [] then [EnvLookup.settingsEnv "KEY_FILE".toList]
       else if f.key = [] then [EnvLookup.settingsEnv "KEY".toList] else []) ++
      (if f.auth = [] then [EnvLookup.osGetenv "AUTH".toList] else []) ∧
    (server.resolve f getenv settingsEnv).config.KeyFile =
      (if f.keyfile = [] then settingsEnv "KEY_FILE".toList else f.keyfile) ∧
    (server.resolve f getenv settingsEnv).config.KeySeed =
      (if f.keyfile = [] then f.key
       else if f.key = [] then settingsEnv "KEY".toList else f.key) := by
  unfold server.resolve
  simp only [(server.resolveAuth_lookups _ _).1, (server.resolveAuth_lookups _ _).2.1,
    (server.resolveAuth_lookups _ _).2.2,
    (server.resolveKey_lookups _ _).1, (server.resolveKey_lookups _ _).2.1,
    (server.resolveKey_lookups _ _).2.2.1, (server.resolveKey_lookups _ _).2.2.2,
    (server.resolvePort_lookups _ _ _).1, (server.resolvePort_lookups _ _ _).2,
    (server.resolveHost_lookups _ _).1, (server.resolveHost_lookups _ _).2.1,
    (server.resolveHost_lookups _ _).2.2,
    (server.applyBackend_fields _ _).1, (server.applyBackend_fields _ _).2.1,
    (server.applyBackend_fields _ _).2.2, server.bound, List.nil_append]
  exact ⟨trivial, trivial, trivial⟩

theorem server.lookups_of_keygen (f : serverFlags) (getenv settingsEnv : GoString → GoString)
    (newServer : chserver.Config → Bool) (writePid : Bool) (hk : f.keygen ≠ []) :
    (server f getenv settingsEnv newServer writePid).lookups = [] := by
  unfold server
  rw [if_pos hk]

theorem server.settingsEnv_mem_lookups (f : serverFlags)
    (getenv settingsEnv : GoString → GoString) (n : GoString) :
    EnvLookup.settingsEnv n ∈ (server.resolve f getenv settingsEnv).lookups ↔
      (n = "KEY_FILE".toList ∧ f.keyfile = []) ∨
      (n = "KEY".toList ∧ f.keyfile ≠ [] ∧ f.key = []) := by
  rw [(server.resolve_lookups f getenv settingsEnv).1]
  by_cases h1 : f.keyfile = []
  · simp only [h1, if_true, List.mem_append, ne_eq, not_true_eq_false, false_and, and_false,
      or_false, and_true]
    constructor
    · intro h
      rcases h with ((h | h) | h) | h
      · split_ifs at h <;> simp at h
      · split_ifs at h <;> simp at h
      · simpa using h
      · split_ifs at h <;> simp at h
    · intro h
      left; right
      simp [h]
  · simp only [h1, if_false, List.mem_append, ne_eq, not_false_eq_true, true_and, and_false,
      false_or]
    constructor
    · intro h
      rcases h with ((h | h) | h) | h
      · split_ifs at h <;> simp at h
      · split_ifs at h <;> simp at h
      · split_ifs at h with h2
        · exact ⟨by simpa using h, h2⟩
        · simp at h
      · split_ifs at h <;> simp at h
    · intro h
      left; right
      simp [h.1, h.2]

/-- C8: key-material resolution in `server` takes one of two exclusive
branches.  When the engine constructor is reached (no `--keygen`): with an
empty `--keyfile` the key file is `settings.Env("KEY_FILE")`, the key seed
stays the `--key` value and `settings.Env("KEY")` is not read; with a
non-empty `--keyfile` the key file stays, the key seed is
`settings.Env("KEY")` when `--key` is empty and the `--key` value otherwise,
and `settings.Env("KEY_FILE")` is not read.  In no run are both read. -/
theorem server_key_material_exclusive (f : serverFlags)
    (getenv settingsEnv : GoString → GoString) (newServer : chserver.Config → Bool)
    (writePid : Bool) :
    (f.keygen = [] →
      ∃ cfg, (server f getenv settingsEnv newServer writePid).NewServer = some cfg ∧
        (f.keyfile = [] →
          cfg.KeyFile = settingsEnv "KEY_FILE".toList ∧ cfg.KeySeed = f.key ∧
          EnvLookup.settingsEnv "KEY_FILE".toList ∈
            (server f getenv settingsEnv newServer writePid).lookups ∧
          EnvLookup.settingsEnv "KEY".toList ∉
            (server f getenv settingsEnv newServer writePid).lookups) ∧
        (f.keyfile ≠ [] →
          cfg.KeyFile = f.keyfile ∧
          cfg.KeySeed = (if f.key = [] then settingsEnv "KEY".toList else f.key) ∧
          EnvLookup.settingsEnv "KEY_FILE".toList ∉
            (server f getenv settingsEnv newServer writePid).lookups ∧
          (EnvLookup.settingsEnv "KEY".toList ∈
            (server f getenv settingsEnv newServer writePid).lookups ↔ f.key = []))) ∧
    ¬ (EnvLookup.settingsEnv "KEY_FILE".toList ∈ (server f getenv settingsEnv newServer writePid).lookups ∧
       EnvLookup.settingsEnv "KEY".toList ∈ (server f getenv settingsEnv newServer writePid).lookups) := by
  have hne : ¬ "KEY".toList = "KEY_FILE".toList := by decide
  have hne2 : ¬ "KEY_FILE".toList = "KEY".toList := by decide
  by_cases hk : f.keygen = []
  · obtain ⟨hN, hL⟩ := server.NewServer_of_keygen_nil f getenv settingsEnv newServer writePid hk
    obtain ⟨-, hF, hS⟩ := server.resolve_lookups f getenv settingsEnv
    refine ⟨fun _ => ⟨_, hN, ?_, ?_⟩, ?_⟩
    · intro h1
      rw [hL, hF, hS, server.settingsEnv_mem_lookups, server.settingsEnv_mem_lookups]
      refine ⟨by rw [if_pos h1], by rw [if_pos h1], Or.inl ⟨rfl, h1⟩, ?_⟩
      rintro (⟨h, -⟩ | ⟨-, h, -⟩)
      · exact hne h
      · exact h h1
    · intro h1
      rw [hL, hF, hS, server.settingsEnv_mem_lookups, server.settingsEnv_mem_lookups]
      refine ⟨by rw [if_neg h1], by rw [if_neg h1], ?_, ?_⟩
      · rintro (⟨-, h⟩ | ⟨h, -⟩)
        · exact h1 h
        · exact hne2 h
      · constructor
        · rintro (⟨h, -⟩ | ⟨-, -, h⟩)
          · exact absurd h hne
          · exact h
        · intro h
          exact Or.inr ⟨rfl, h1, h⟩
    · rw [hL, server.settingsEnv_mem_lookups, server.settingsEnv_mem_lookups]
      rintro ⟨h1 | h1, h2 | h2⟩
      · exact hne h2.1
      · exact h2.2.1 h1.2
      · exact hne2 h1.1
      · exact hne2 h1.1
  · refine ⟨fun h => absurd h hk, ?_⟩
    rw [server.lookups_of_keygen f getenv settingsEnv newServer writePid hk]
    simp

/-- C8 with `--keyfile /k`, no `--key` and a key seed in the environment: the key
file stays and the seed comes from the environment. -/
theorem server_key_material_exclusive_witness :
    ∃ cfg, (server { server.defaults with keyfile := "/k".toList }
        (environ []) (environ [("KEY".toList, "seed".toList)]) (fun _ => true) true).NewServer
        = some cfg ∧
      cfg.KeyFile = "/k".toList ∧ cfg.KeySeed = "seed".toList :=
  let h := (server_key_material_exclusive { server.defaults with keyfile := "/k".toList }
    (environ []) (environ [("KEY".toList, "seed".toList)]) (fun _ => true) true).1 rfl
  ⟨h.choose, h.choose_spec.1, (h.choose_spec.2.2 (by decide)).1,
    (h.choose_spec.2.2 (by decide)).2.1⟩

theorem client.resolve_fields (f : clientFlags) (getenv : GoString → GoString) :
    (client.resolve f getenv).1.Server = f.args.getD 0 [] ∧
    (client.resolve f getenv).1.Remotes = f.args.drop 1 ∧
    (client.resolve f getenv).1.TLS.ServerName = (if f.sni ≠ [] then f.sni else f.hostname) ∧
    (client.resolve f getenv).1.Headers =
      (if f.hostname ≠ [] then f.header.Set "Host".toList f.hostname else f.header) := by
  unfold client.resolve
  generalize getenv "AUTH".toList = e
  generalize "Host".toList = hostKey
  simp only [client.bound]
  by_cases h1 : f.auth = [] <;> by_cases h2 : f.hostname = [] <;> by_cases h3 : f.sni = [] <;>
    simp [h1, h2, h3]

theorem client.NewClient_of_args (f : clientFlags) (getenv : GoString → GoString)
    (newClient : chclient.Config → Bool) (writePid : Bool) (ha : 2 ≤ f.args.length) :
    (client f getenv newClient writePid).NewClient = some (client.resolve f getenv).1 ∧
    (client f getenv newClient writePid).Fatalf = none := by
  have hlt : ¬ f.args.length < 2 := by omega
  unfold client
  rw [if_neg hlt]
  by_cases hn : newClient (client.resolve f getenv).1 = true
  · cases hpid : f.pid <;> cases writePid <;> simp [hn, hpid]
  · simp [hn]

/-- C6: with fewer than two positional arguments `client` ends in `log.Fatalf`
without calling `chclient.NewClient` or launching `Start`; with two or more,
`chclient.NewClient` is called with a configuration whose server address is
the first argument and whose remotes are the remaining arguments in order,
a non-empty list. -/
theorem client_positional_arguments (f : clientFlags) (getenv : GoString → GoString)
    (newClient : chclient.Config → Bool) (writePid : Bool) :
    (f.args.length < 2 →
      (client f getenv newClient writePid).NewClient = none ∧
      (client f getenv newClient writePid).Start = false ∧
      (client f getenv newClient writePid).fatal = true ∧
      (client f getenv newClient writePid).Fatalf =
        some "A server and at least one remote is required".toList) ∧
    (2 ≤ f.args.length →
      ∃ cfg, (client f getenv newClient writePid).NewClient = some cfg ∧
        (client f getenv newClient writePid).Fatalf = none ∧
        f.args = cfg.Server :: cfg.Remotes ∧ cfg.Remotes ≠ []) := by
  constructor
  · intro hlt
    unfold client
    rw [if_pos hlt]
    exact ⟨rfl, rfl, rfl, rfl⟩
  · intro hge
    obtain ⟨h1, h2⟩ := client.NewClient_of_args f getenv newClient writePid hge
    obtain ⟨hS, hR, -, -⟩ := client.resolve_fields f getenv
    refine ⟨_, h1, h2, ?_, ?_⟩
    · rw [hS, hR]
      rcases hargs : f.args with _ | ⟨a, t⟩
      · rw [hargs] at hge; simp at hge
      · simp
    · rw [hR]
      rcases hargs : f.args with _ | ⟨a, _ | ⟨b, t⟩⟩
      · rw [hargs] at hge; simp at hge
      · rw [hargs] at hge; simp at hge
      · simp

/-- C6 on one positional argument, and on three: the first run never calls
`chclient.NewClient`, the second hands it the first argument as server and the
other two as remotes. -/
theorem client_positional_arguments_witness :
    (client (client.defaults ["srv".toList]) (environ []) (fun _ => true) true).NewClient
      = none ∧
    ∃ cfg, (client (client.defaults ["srv".toList, "r1".toList, "r2".toList]) (environ [])
        (fun _ => true) true).NewClient = some cfg ∧
      ["srv".toList, "r1".toList, "r2".toList] = cfg.Server :: cfg.Remotes :=
  ⟨((client_positional_arguments (client.defaults ["srv".toList]) (environ [])
      (fun _ => true) true).1 (by decide)).1,
   let h := (client_positional_arguments
      (client.defaults ["srv".toList, "r1".toList, "r2".toList]) (environ [])
      (fun _ => true) true).2 (by decide)
   ⟨h.choose, h.choose_spec.1, h.choose_spec.2.2.1⟩⟩

/-- C7: when `client` reaches the engine constructor (two or more positional
arguments), the configuration handed to it has as TLS server name the `--sni`
value if non-empty and the `--hostname` value otherwise; with a non-empty
`--hostname` its `Host` entry is the single value given, whatever `--header`
collected under `Host`, and every other entry is as collected; with an empty
`--hostname` the headers are the collected mapping. -/
theorem client_hostname_sni (f : clientFlags) (getenv : GoString → GoString)
    (newClient : chclient.Config → Bool) (writePid : Bool) (ha : 2 ≤ f.args.length) :
    ∃ cfg, (client f getenv newClient writePid).NewClient = some cfg ∧
      cfg.TLS.ServerName = (if f.sni ≠ [] then f.sni else f.hostname) ∧
      (f.hostname ≠ [] →
        cfg.Headers.lookup "Host".toList = some [f.hostname] ∧
        ∀ k, k ≠ "Host".toList → cfg.Headers.lookup k = f.header.lookup k) ∧
      (f.hostname = [] → cfg.Headers = f.header) := by
  obtain ⟨h1, -⟩ := client.NewClient_of_args f getenv newClient writePid ha
  obtain ⟨-, -, hN, hH⟩ := client.resolve_fields f getenv
  have hcanon : textproto.CanonicalMIMEHeaderKey "Host".toList = "Host".toList := by decide
  refine ⟨_, h1, hN, ?_, ?_⟩
  · intro hh
    rw [hH, if_pos hh]
    unfold http.Header.Set
    rw [hcanon]
    constructor
    · rw [http.Header.lookup_store, if_pos rfl]
    · intro k hk
      rw [http.Header.lookup_store, if_neg hk]
  · intro hh
    rw [hH, if_neg (not_not.mpr hh)]

/-- C7 with `--hostname`, `--sni` and two collected `Host` values: the server name
is the SNI and the `Host` entry is the hostname alone. -/
theorem client_hostname_sni_witness :
    ∃ cfg, (client { client.defaults ["srv".toList, "3000".toList] with
          header := [("Host".toList, ["old".toList, "older".toList])]
          hostname := "h.example".toList, sni := "s.example".toList }
        (environ []) (fun _ => true) true).NewClient = some cfg ∧
      cfg.TLS.ServerName = "s.example".toList ∧
      cfg.Headers.lookup "Host".toList = some ["h.example".toList] :=
  let h := client_hostname_sni { client.defaults ["srv".toList, "3000".toList] with
          header := [("Host".toList, ["old".toList, "older".toList])]
          hostname := "h.example".toList, sni := "s.example".toList }
        (environ []) (fun _ => true) true (by decide)
  ⟨h.choose, h.choose_spec.1, h.choose_spec.2.1, (h.choose_spec.2.2.1 (by decide)).1⟩

/-! ## Shutdown orchestration -/

namespace Orchestrator

theorem Inv_init (mode : Mode) : Inv mode (init mode) := by
  cases mode <;> simp [Inv, init, entry]

theorem Inv_stepMain (mode : Mode) (s s1 : State) (ok : Bool) (hi : Inv mode s)
    (hs : stepMain mode s ok = some s1) : Inv mode s1 := by
  obtain ⟨main, handler, start, close, engine, ctx, notified, buf, delivered, received, calls,
    done, exited⟩ := s
  obtain ⟨i1, i2, i3, i4, i5, i6, i7, i8, i9, i10, i11⟩ := hi
  simp only at i1 i2 i3 i4 i5 i6 i7 i8 i9 i10 i11
  cases main <;> cases mode <;> cases ok <;>
    simp [stepMain, next] at hs <;>
    (first | subst hs | (obtain ⟨hc, rfl⟩ := hs)) <;>
    simp [Inv] at * <;>
    (try simp_all)

theorem Inv_stepHandler (mode : Mode) (s s1 : State) (hi : Inv mode s)
    (hs : stepHandler s = some s1) : Inv mode s1 := by
  obtain ⟨main, handler, start, close, engine, ctx, notified, buf, delivered, received, calls,
    done, exited⟩ := s
  obtain ⟨i1, i2, i3, i4, i5, i6, i7, i8, i9, i10, i11⟩ := hi
  simp only at i1 i2 i3 i4 i5 i6 i7 i8 i9 i10 i11
  cases handler <;>
    simp [stepHandler] at hs <;>
    (first | subst hs | (obtain ⟨hc, rfl⟩ := hs)) <;>
    simp [Inv] at * <;>
    (try simp_all)

theorem Inv_stepStart (mode : Mode) (s s1 : State) (ok : Bool) (hi : Inv mode s)
    (hs : stepStart s ok = some s1) : Inv mode s1 := by
  obtain ⟨main, handler, start, close, engine, ctx, notified, buf, delivered, received, calls,
    done, exited⟩ := s
  obtain ⟨i1, i2, i3, i4, i5, i6, i7, i8, i9, i10, i11⟩ := hi
  simp only at i1 i2 i3 i4 i5 i6 i7 i8 i9 i10 i11
  cases start <;> cases ok <;>
    simp [stepStart] at hs <;>
    subst hs <;>
    simp [Inv] at * <;>
    (try simp_all)

theorem Inv_stepClose (mode : Mode) (s s1 : State) (hi : Inv mode s)
    (hs : stepClose s = some s1) : Inv mode s1 := by
  obtain ⟨main, handler, start, close, engine, ctx, notified, buf, delivered, received, calls,
    done, exited⟩ := s
  obtain ⟨i1, i2, i3, i4, i5, i6, i7, i8, i9, i10, i11⟩ := hi
  simp only at i1 i2 i3 i4 i5 i6 i7 i8 i9 i10 i11
  cases close <;>
    simp [stepClose] at hs <;>
    subst hs <;>
    simp [Inv] at * <;>
    (try simp_all)

theorem Inv_stepSignal (mode : Mode) (s s1 : State) (hi : Inv mode s)
    (hs : stepSignal s = some s1) : Inv mode s1 := by
  obtain ⟨main, handler, start, close, engine, ctx, notified, buf, delivered, received, calls,
    done, exited⟩ := s
  obtain ⟨i1, i2, i3, i4, i5, i6, i7, i8, i9, i10, i11⟩ := hi
  simp only at i1 i2 i3 i4 i5 i6 i7 i8 i9 i10 i11
  cases notified <;>
    simp [stepSignal] at hs <;>
    subst hs <;>
    simp [Inv] at * <;>
    (try simp_all)

theorem Inv_step (mode : Mode) (s s1 : State) (a : Action) (hi : Inv mode s)
    (hs : step mode s a = some s1) : Inv mode s1 := by
  unfold step at hs
  split_ifs at hs
  cases a with
  | main ok => exact Inv_stepMain mode s s1 ok hi hs
  | handler => exact Inv_stepHandler mode s s1 hi hs
  | start ok => exact Inv_stepStart mode s s1 ok hi hs
  | close ok => exact Inv_stepClose mode s s1 hi hs
  | signal => exact Inv_stepSignal mode s s1 hi hs

theorem Inv_run (mode : Mode) (acts : List Action) (s s1 : State) (hi : Inv mode s)
    (hr : run mode s acts = some s1) : Inv mode s1 := by
  induction acts generalizing s with
  | nil =>
    simp only [run, Option.some.injEq] at hr
    exact hr ▸ hi
  | cons a rest ih =>
    simp only [run] at hr
    cases hstep : step mode s a with
    | none => rw [hstep] at hr; cases hr
    | some s2 =>
      rw [hstep] at hr
      exact ih s2 (Inv_step mode s s2 a hi hstep) hr

theorem ctxCancelled_step (mode : Mode) (s s1 : State) (a : Action)
    (hs : step mode s a = some s1) (hc : s.ctxCancelled = true) : s1.ctxCancelled = true := by
  obtain ⟨main, handler, start, close, engine, ctx, notified, buf, delivered, received, calls,
    done, exited⟩ := s
  simp only at hc
  subst hc
  unfold step at hs
  split_ifs at hs
  cases a with
  | main ok =>
    cases main <;> cases ok <;> simp [stepMain] at hs <;>
      (first | subst hs | (obtain ⟨hc, rfl⟩ := hs)) <;> rfl
  | handler =>
    cases handler <;> simp [stepHandler] at hs <;>
      (first | subst hs | (obtain ⟨hc, rfl⟩ := hs)) <;> rfl
  | start ok =>
    cases start <;> cases ok <;> simp [stepStart] at hs <;> subst hs <;> rfl
  | close ok =>
    cases close <;> simp [stepClose] at hs <;> subst hs <;> rfl
  | signal =>
    cases notified <;> simp [stepSignal] at hs <;> subst hs <;> rfl

theorem ctxCancelled_run (mode : Mode) (acts : List Action) (s s1 : State)
    (hr : run mode s acts = some s1) (hc : s.ctxCancelled = true) : s1.ctxCancelled = true := by
  induction acts generalizing s with
  | nil =>
    simp only [run, Option.some.injEq] at hr
    exact hr ▸ hc
  | cons a rest ih =>
    simp only [run] at hr
    cases hstep : step mode s a with
    | none => rw [hstep] at hr; cases hr
    | some s2 =>
      rw [hstep] at hr
      exact ih s2 hr (ctxCancelled_step mode s s2 a hstep hc)

end Orchestrator

/-- C10: in every state the orchestration of `server` or of `client` can reach,
the engine's `Close` has been called at most once, and if it has been called
then the engine was constructed without error and the context is cancelled,
which in turn happened after `handleInterrupt` received a signal the operating
system had sent; and from any reachable state on, a cancelled context stays
cancelled, through one step and through any further schedule. -/
theorem shutdown_ordering (mode : Orchestrator.Mode) (s : Orchestrator.State)
    (h : Orchestrator.Reachable mode s) :
    s.closeCalls ≤ 1 ∧
    (0 < s.closeCalls →
      s.engine = true ∧ s.ctxCancelled = true ∧ 0 < s.received ∧ 0 < s.delivered) ∧
    (s.ctxCancelled = true → 0 < s.received ∧ 0 < s.delivered) ∧
    (∀ a s1, Orchestrator.step mode s a = some s1 → s.ctxCancelled = true →
      s1.ctxCancelled = true) ∧
    (∀ acts s1, Orchestrator.run mode s acts = some s1 → s.ctxCancelled = true →
      s1.ctxCancelled = true) := by
  obtain ⟨acts, hr⟩ := h
  obtain ⟨i1, i2, i3, i4, i5, i6, i7, i8, i9, i10, i11⟩ :=
    Orchestrator.Inv_run mode acts _ s (Orchestrator.Inv_init mode) hr
  have hcl : 0 < s.closeCalls → s.engine = true ∧ s.ctxCancelled = true := by
    intro hpos
    have hne : s.close ≠ .notSpawned := by
      intro h0
      have := i2 (Or.inl h0)
      omega
    exact i4 (Or.inr (i3 hne))
  refine ⟨i1, ?_, ?_, ?_, ?_⟩
  · intro hpos
    obtain ⟨he, hc⟩ := hcl hpos
    exact ⟨he, hc, i8 hc, i10 (i8 hc)⟩
  · intro hc
    exact ⟨i8 hc, i10 (i8 hc)⟩
  · intro a s1 hs hc
    exact Orchestrator.ctxCancelled_step mode s s1 a hs hc
  · intro acts1 s1 hr1 hc
    exact Orchestrator.ctxCancelled_run mode acts1 s s1 hr1 hc

/-- C10 on a client run in which the signal arrives and the context is cancelled
before `chclient.NewClient` returns: `Close` is then called once, on a
constructed engine and a cancelled context. -/
theorem shutdown_ordering_witness :
    ∃ s, Orchestrator.run .client (Orchestrator.init .client)
        [.main true, .main true, .handler, .signal, .handler, .handler, .main true,
         .main true, .main true, .main true, .main true, .close true] = some s ∧
      s.closeCalls = 1 ∧ s.engine = true ∧ s.ctxCancelled = true :=
  ⟨_, rfl, rfl,
    ((shutdown_ordering .client _ ⟨[.main true, .main true, .handler, .signal, .handler,
      .handler, .main true, .main true, .main true, .main true, .main true, .close true],
      rfl⟩).2.1 (by decide)).1,
    ((shutdown_ordering .client _ ⟨[.main true, .main true, .handler, .signal, .handler,
      .handler, .main true, .main true, .main true, .main true, .main true, .close true],
      rfl⟩).2.1 (by decide)).2.1⟩

end Chisel
